import Mathlib

/-!
Verification of the staleness-tracked metrics registry of ruuvi-collector-rs.

The embedding follows src/ruuvi_gauges.rs (the Registry core: the `RuuviGauges`
struct, `update_sensor_values`, `remove_sensor_values` and the periodic cleanup
job spawned in `create_and_register`), src/metrics_server.rs (the scrape
handler) and src/ruuvi_listener.rs (`parse_manufacturer_data`).

Modelling choices:
- prometheus `GaugeVec`/`IntGaugeVec` label maps and the `HashMap<String, Instant>`
  are modelled as association lists from the formatted address string to the
  stored value; `HashMap::insert`, label removal and `retain` become the list
  operations `mapSet`, `mapRemove` and `retain_fresh`/`stale_keys` below.
- `tokio::time::Instant` values are modelled as natural numbers (seconds);
  `Instant` subtraction saturates at zero, which `Nat` subtraction matches.
- `f64` gauge values are modelled as exact rationals; the literals `1e-3` and
  `1e-4` of the source are the exact rationals 1/1000 and 1/10000.
- the external decoder `SensorValues::from_manufacturer_specific_data` is a
  parameter of the parser model, returning `Except DecodeError SensorValues`;
  `.ok()` is `exceptOk`.
-/

namespace Ruuvi

/-- `CLEANUP_PERIOD` of src/ruuvi_gauges.rs, in seconds: the cleanup job runs
every second. -/
def CLEANUP_PERIOD : Nat := 1

/-- `STALE_TIMEOUT` of src/ruuvi_gauges.rs, in seconds: tags are stale and lost
if they have not been seen for 10 seconds. -/
def STALE_TIMEOUT : Nat := 10

/-- The optional fields of `ruuvi_sensor_protocol::SensorValues`, named after
the accessor methods the source calls. -/
structure SensorValues where
  temperature_as_millicelsius : Option Int
  humidity_as_ppm : Option Nat
  pressure_as_pascals : Option Nat
  battery_potential_as_millivolts : Option Nat
  movement_counter : Option Nat
  measurement_sequence_number : Option Nat
deriving DecidableEq

/-- Lookup in an association list keyed by the formatted address string;
models reading a labelled gauge value or a `HashMap` entry. -/
def mapLookup {V : Type} : List (String × V) → String → Option V
  | [], _ => none
  | p :: rest, k => if p.1 = k then some p.2 else mapLookup rest k

/-- Removal of a key from an association list; models
`GaugeVec::remove_label_values` and `HashMap::remove`. -/
def mapRemove {V : Type} : List (String × V) → String → List (String × V)
  | [], _ => []
  | p :: rest, k => if p.1 = k then mapRemove rest k else p :: mapRemove rest k

/-- Overwriting insertion; models `with_label_values(..).set(..)` and
`HashMap::insert`. -/
def mapSet {V : Type} (m : List (String × V)) (k : String) (v : V) :
    List (String × V) :=
  (k, v) :: mapRemove m k

/-- The `RuuviGauges` struct of src/ruuvi_gauges.rs: six per-quantity label
maps plus the `last_seen` table. -/
structure RuuviGauges where
  temperature : List (String × ℚ)
  humidity : List (String × ℚ)
  pressure : List (String × ℚ)
  battery_potential : List (String × ℚ)
  movement_counter : List (String × Int)
  sequence_number : List (String × Int)
  last_seen : List (String × Nat)

/-- The state `create_and_register` builds: every map empty
(`last_seen: Default::default()`). -/
def initialGauges : RuuviGauges :=
  { temperature := [], humidity := [], pressure := [], battery_potential := [],
    movement_counter := [], sequence_number := [], last_seen := [] }

/-- `RuuviGauges::remove_sensor_values`: removes the address from each of the
six label maps, ignoring whether an entry existed; `last_seen` is untouched. -/
def remove_sensor_values (g : RuuviGauges) (address : String) : RuuviGauges :=
  { g with
    temperature := mapRemove g.temperature address,
    humidity := mapRemove g.humidity address,
    pressure := mapRemove g.pressure address,
    battery_potential := mapRemove g.battery_potential address,
    movement_counter := mapRemove g.movement_counter address,
    sequence_number := mapRemove g.sequence_number address }

/-- The first block of `RuuviGauges::update_sensor_values`: under the lock,
`last_seen.insert(address, Instant::now())`. -/
def update_last_seen (g : RuuviGauges) (address : String) (now : Nat) :
    RuuviGauges :=
  { g with last_seen := mapSet g.last_seen address now }

/-- The per-quantity part of `RuuviGauges::update_sensor_values`: for each of
the six quantities, set the converted value if the reading carries the field,
otherwise remove the label entry. -/
def update_metric_values (g : RuuviGauges) (address : String)
    (values : SensorValues) : RuuviGauges :=
  { g with
    temperature :=
      match values.temperature_as_millicelsius with
      | some t => mapSet g.temperature address ((t : ℚ) * (1 / 1000))
      | none => mapRemove g.temperature address,
    humidity :=
      match values.humidity_as_ppm with
      | some h => mapSet g.humidity address ((h : ℚ) * (1 / 10000))
      | none => mapRemove g.humidity address,
    pressure :=
      match values.pressure_as_pascals with
      | some p => mapSet g.pressure address ((p : ℚ) * (1 / 1000))
      | none => mapRemove g.pressure address,
    battery_potential :=
      match values.battery_potential_as_millivolts with
      | some b => mapSet g.battery_potential address (b : ℚ)
      | none => mapRemove g.battery_potential address,
    movement_counter :=
      match values.movement_counter with
      | some c => mapSet g.movement_counter address (c : Int)
      | none => mapRemove g.movement_counter address,
    sequence_number :=
      match values.measurement_sequence_number with
      | some s => mapSet g.sequence_number address (s : Int)
      | none => mapRemove g.sequence_number address }

/-- `RuuviGauges::update_sensor_values` in source order: first the `last_seen`
insert (under the lock), then the six per-quantity updates. -/
def update_sensor_values (g : RuuviGauges) (address : String)
    (values : SensorValues) (now : Nat) : RuuviGauges :=
  update_metric_values (update_last_seen g address now) address values

/-- The entries the cleanup job's `retain` keeps: those with
`now - value < STALE_TIMEOUT`. -/
def retain_fresh (now : Nat) : List (String × Nat) → List (String × Nat)
  | [] => []
  | p :: rest =>
    if now - p.2 < STALE_TIMEOUT then p :: retain_fresh now rest
    else retain_fresh now rest

/-- The addresses the cleanup job's `retain` drops (calling
`remove_sensor_values` on each): those with `now - value >= STALE_TIMEOUT`. -/
def stale_keys (now : Nat) : List (String × Nat) → List String
  | [] => []
  | p :: rest =>
    if now - p.2 < STALE_TIMEOUT then stale_keys now rest
    else p.1 :: stale_keys now rest

/-- One tick of the cleanup job spawned in `create_and_register`: compute
`now`, then `retain` over the whole `last_seen` table, removing the sensor
values of every dropped address. -/
def sweep (g : RuuviGauges) (now : Nat) : RuuviGauges :=
  let g2 := (stale_keys now g.last_seen).foldl remove_sensor_values g
  { g2 with last_seen := retain_fresh now g.last_seen }

/-- The six registered metric families. -/
inductive Quantity
  | temperature
  | humidity
  | pressure
  | battery_potential
  | movement_counter
  | sequence_number
deriving DecidableEq

/-- `Registry::gather` restricted to the information content the claims are
about: every (quantity, address label, value) triple currently exposed. Integer
gauges are exposed as their rational value. -/
def gather (g : RuuviGauges) : List (Quantity × String × ℚ) :=
  g.temperature.map (fun p => (Quantity.temperature, p.1, p.2)) ++
  g.humidity.map (fun p => (Quantity.humidity, p.1, p.2)) ++
  g.pressure.map (fun p => (Quantity.pressure, p.1, p.2)) ++
  g.battery_potential.map (fun p => (Quantity.battery_potential, p.1, p.2)) ++
  g.movement_counter.map (fun p => (Quantity.movement_counter, p.1, (p.2 : ℚ))) ++
  g.sequence_number.map (fun p => (Quantity.sequence_number, p.1, (p.2 : ℚ)))

/-- The request methods the scrape handler of src/metrics_server.rs
distinguishes. -/
inductive HttpMethod
  | get
  | post
  | put
  | delete
deriving DecidableEq

/-- The response of one scrape request: status code plus the gathered metric
content of the body (the text encoding step carries no further state). -/
structure HttpResponse where
  status : Nat
  body : List (Quantity × String × ℚ)

/-- The request handler of `create_metrics_server`: `GET /metrics` encodes
`registry.gather()` into the body; any other method or path is answered with
`404 Not Found`. The registry state is returned alongside the response to make
the handler's effect on it explicit. -/
def handle_metrics_request (g : RuuviGauges) (method : HttpMethod)
    (path : String) : HttpResponse × RuuviGauges :=
  match method, path with
  | HttpMethod.get, "/metrics" => ({ status := 200, body := gather g }, g)
  | _, _ => ({ status := 404, body := [] }, g)

/-- The atomic writes `update_sensor_values` performs, used to state claims
about their program order. -/
inductive MetricOp
  | set_last_seen (address : String) (now : Nat)
  | set_temperature (address : String) (value : ℚ)
  | remove_temperature (address : String)
  | set_humidity (address : String) (value : ℚ)
  | remove_humidity (address : String)
  | set_pressure (address : String) (value : ℚ)
  | remove_pressure (address : String)
  | set_battery_potential (address : String) (value : ℚ)
  | remove_battery_potential (address : String)
  | set_movement_counter (address : String) (value : Int)
  | remove_movement_counter (address : String)
  | set_sequence_number (address : String) (value : Int)
  | remove_sequence_number (address : String)
deriving DecidableEq

/-- Effect of one atomic write on the registry state. -/
def applyOp (g : RuuviGauges) : MetricOp → RuuviGauges
  | MetricOp.set_last_seen a now => { g with last_seen := mapSet g.last_seen a now }
  | MetricOp.set_temperature a v => { g with temperature := mapSet g.temperature a v }
  | MetricOp.remove_temperature a => { g with temperature := mapRemove g.temperature a }
  | MetricOp.set_humidity a v => { g with humidity := mapSet g.humidity a v }
  | MetricOp.remove_humidity a => { g with humidity := mapRemove g.humidity a }
  | MetricOp.set_pressure a v => { g with pressure := mapSet g.pressure a v }
  | MetricOp.remove_pressure a => { g with pressure := mapRemove g.pressure a }
  | MetricOp.set_battery_potential a v =>
    { g with battery_potential := mapSet g.battery_potential a v }
  | MetricOp.remove_battery_potential a =>
    { g with battery_potential := mapRemove g.battery_potential a }
  | MetricOp.set_movement_counter a v =>
    { g with movement_counter := mapSet g.movement_counter a v }
  | MetricOp.remove_movement_counter a =>
    { g with movement_counter := mapRemove g.movement_counter a }
  | MetricOp.set_sequence_number a v =>
    { g with sequence_number := mapSet g.sequence_number a v }
  | MetricOp.remove_sequence_number a =>
    { g with sequence_number := mapRemove g.sequence_number a }

/-- Effect of a sequence of atomic writes, applied in program order. -/
def applyTrace (g : RuuviGauges) (ops : List MetricOp) : RuuviGauges :=
  ops.foldl applyOp g

/-- The six per-quantity writes of `update_sensor_values`, in the order the
source performs them. -/
def metric_trace (address : String) (values : SensorValues) : List MetricOp :=
  [match values.temperature_as_millicelsius with
   | some t => MetricOp.set_temperature address ((t : ℚ) * (1 / 1000))
   | none => MetricOp.remove_temperature address,
   match values.humidity_as_ppm with
   | some h => MetricOp.set_humidity address ((h : ℚ) * (1 / 10000))
   | none => MetricOp.remove_humidity address,
   match values.pressure_as_pascals with
   | some p => MetricOp.set_pressure address ((p : ℚ) * (1 / 1000))
   | none => MetricOp.remove_pressure address,
   match values.battery_potential_as_millivolts with
   | some b => MetricOp.set_battery_potential address (b : ℚ)
   | none => MetricOp.remove_battery_potential address,
   match values.movement_counter with
   | some c => MetricOp.set_movement_counter address (c : Int)
   | none => MetricOp.remove_movement_counter address,
   match values.measurement_sequence_number with
   | some s => MetricOp.set_sequence_number address (s : Int)
   | none => MetricOp.remove_sequence_number address]

/-- The full write sequence of `RuuviGauges::update_sensor_values` in program
order: the body first inserts into `last_seen` (inside the lock scope) and only
then performs the six per-quantity updates. -/
def record_trace (address : String) (values : SensorValues) (now : Nat) :
    List MetricOp :=
  MetricOp.set_last_seen address now :: metric_trace address values

/-- Errors of the external decoder
`SensorValues::from_manufacturer_specific_data`; the parser only ever
discards them via `.ok()`. -/
inductive DecodeError
  | decode_failed
deriving DecidableEq

/-- `Result::ok`: keep the success value, drop the error. -/
def exceptOk {ε α : Type} : Except ε α → Option α
  | Except.ok a => some a
  | Except.error _ => none

/-- `u16::from_le_bytes` on the two leading bytes. -/
def u16_from_le_bytes (b0 b1 : Nat) : Nat := b0 + 256 * b1

/-- `parse_manufacturer_data` of src/ruuvi_listener.rs (identical to
`parse_data` of src/main.rs), parameterised by the external decoder `dec`: if
the payload holds at least two bytes, split off the little-endian manufacturer
id and decode the rest, discarding decode errors; otherwise `None`. -/
def parse_manufacturer_data
    (dec : Nat → List Nat → Except DecodeError SensorValues)
    (data : List Nat) : Option SensorValues :=
  if h : 2 ≤ data.length then
    exceptOk (dec (u16_from_le_bytes (data.get ⟨0, by omega⟩)
      (data.get ⟨1, by omega⟩)) (data.drop 2))
  else
    none

/-! ### Lemmas about the association-list map operations -/

theorem mapLookup_mapSet_self {V : Type} (m : List (String × V)) (k : String)
    (v : V) : mapLookup (mapSet m k v) k = some v := by
  simp [mapSet, mapLookup]

theorem mapLookup_mapRemove {V : Type} (m : List (String × V))
    (k a : String) :
    mapLookup (mapRemove m a) k = if k = a then none else mapLookup m k := by
  induction m with
  | nil => simp [mapRemove, mapLookup]
  | cons p rest ih =>
    obtain ⟨pk, pv⟩ := p
    by_cases hp : pk = a
    · by_cases hk : k = a
      · subst hk
        simp [mapRemove, mapLookup, hp, ih]
      · have hak : ¬ a = k := fun hh => hk hh.symm
        simp [mapRemove, mapLookup, hp, hk, hak, ih]
    · by_cases hk : pk = k
      · have hka : ¬ k = a := by rw [← hk]; exact hp
        simp [mapRemove, mapLookup, hp, hk, hka]
      · simp [mapRemove, mapLookup, hp, hk, ih]

theorem mapLookup_mapRemove_self {V : Type} (m : List (String × V))
    (k : String) : mapLookup (mapRemove m k) k = none := by
  simp [mapLookup_mapRemove]

theorem mapLookup_mapRemove_ne {V : Type} (m : List (String × V))
    {k a : String} (h : k ≠ a) :
    mapLookup (mapRemove m a) k = mapLookup m k := by
  simp [mapLookup_mapRemove, h]

theorem mapLookup_mapSet_ne {V : Type} (m : List (String × V)) {k a : String}
    (v : V) (h : k ≠ a) : mapLookup (mapSet m a v) k = mapLookup m k := by
  have hak : ¬ a = k := fun hh => h hh.symm
  simp [mapSet, mapLookup, hak, mapLookup_mapRemove_ne m h]

theorem mem_of_mapLookup {V : Type} {m : List (String × V)} {k : String}
    {v : V} (h : mapLookup m k = some v) : (k, v) ∈ m := by
  induction m with
  | nil => simp [mapLookup] at h
  | cons p rest ih =>
    obtain ⟨pk, pv⟩ := p
    by_cases hp : pk = k
    · simp [mapLookup, hp] at h
      rw [hp, h]
      exact List.mem_cons_self _ _
    · simp [mapLookup, hp] at h
      exact List.mem_cons_of_mem _ (ih h)

theorem mapLookup_eq_none_iff {V : Type} {m : List (String × V)}
    {k : String} : mapLookup m k = none ↔ ∀ v, (k, v) ∉ m := by
  induction m with
  | nil => simp [mapLookup]
  | cons p rest ih =>
    obtain ⟨pk, pv⟩ := p
    by_cases hp : pk = k
    · constructor
      · intro h
        simp [mapLookup, hp] at h
      · intro h
        exact absurd (h pv (by rw [← hp]; exact List.mem_cons_self _ _)) (by simp)
    · simp only [mapLookup, hp, if_false, ih]
      constructor
      · intro h v hv
        rcases List.mem_cons.mp hv with h1 | h1
        · exact hp (congrArg Prod.fst h1).symm
        · exact h v h1
      · intro h v hv
        exact h v (List.mem_cons_of_mem _ hv)

theorem mapRemove_eq_self_of_none {V : Type} {m : List (String × V)}
    {k : String} (h : mapLookup m k = none) : mapRemove m k = m := by
  induction m with
  | nil => rfl
  | cons p rest ih =>
    obtain ⟨pk, pv⟩ := p
    by_cases hp : pk = k
    · simp [mapLookup, hp] at h
    · simp [mapLookup, hp] at h
      simp [mapRemove, hp, ih h]

theorem mem_mapRemove_iff {V : Type} {m : List (String × V)} {k a : String}
    {v : V} : (k, v) ∈ mapRemove m a ↔ (k, v) ∈ m ∧ k ≠ a := by
  induction m with
  | nil => simp [mapRemove]
  | cons p rest ih =>
    obtain ⟨pk, pv⟩ := p
    by_cases hp : pk = a
    · constructor
      · intro h
        have h2 := ih.mp (by simpa [mapRemove, hp] using h)
        exact ⟨List.mem_cons_of_mem _ h2.1, h2.2⟩
      · rintro ⟨h1, h2⟩
        rcases List.mem_cons.mp h1 with h3 | h3
        · rw [Prod.mk.injEq] at h3
          exact absurd (by rw [h3.1]; exact hp) h2
        · simpa [mapRemove, hp] using ih.mpr ⟨h3, h2⟩
    · constructor
      · intro h
        simp only [mapRemove, if_neg hp] at h
        rcases List.mem_cons.mp h with h3 | h3
        · refine ⟨List.mem_cons.mpr (Or.inl h3), ?_⟩
          intro hk
          rw [Prod.mk.injEq] at h3
          rw [h3.1] at hk
          exact hp hk
        · have h4 := ih.mp h3
          exact ⟨List.mem_cons_of_mem _ h4.1, h4.2⟩
      · rintro ⟨h1, h2⟩
        rcases List.mem_cons.mp h1 with h3 | h3
        · simp [mapRemove, hp, h3]
        · simp only [mapRemove, hp, if_false]
          exact List.mem_cons_of_mem _ (ih.mpr ⟨h3, h2⟩)

theorem mem_mapSet_iff {V : Type} {m : List (String × V)} {k a : String}
    {v w : V} :
    (k, v) ∈ mapSet m a w ↔ (k = a ∧ v = w) ∨ ((k, v) ∈ m ∧ k ≠ a) := by
  simp only [mapSet, List.mem_cons, Prod.mk.injEq, mem_mapRemove_iff]

/-! ### Structural lemmas about record, remove and sweep -/

theorem usv_last_seen (g : RuuviGauges) (a : String) (v : SensorValues)
    (now : Nat) :
    (update_sensor_values g a v now).last_seen = mapSet g.last_seen a now := rfl

theorem usv_temperature (g : RuuviGauges) (a : String) (v : SensorValues)
    (now : Nat) :
    (update_sensor_values g a v now).temperature =
      match v.temperature_as_millicelsius with
      | some t => mapSet g.temperature a ((t : ℚ) * (1 / 1000))
      | none => mapRemove g.temperature a := rfl

theorem usv_humidity (g : RuuviGauges) (a : String) (v : SensorValues)
    (now : Nat) :
    (update_sensor_values g a v now).humidity =
      match v.humidity_as_ppm with
      | some h => mapSet g.humidity a ((h : ℚ) * (1 / 10000))
      | none => mapRemove g.humidity a := rfl

theorem usv_pressure (g : RuuviGauges) (a : String) (v : SensorValues)
    (now : Nat) :
    (update_sensor_values g a v now).pressure =
      match v.pressure_as_pascals with
      | some p => mapSet g.pressure a ((p : ℚ) * (1 / 1000))
      | none => mapRemove g.pressure a := rfl

theorem usv_battery_potential (g : RuuviGauges) (a : String) (v : SensorValues)
    (now : Nat) :
    (update_sensor_values g a v now).battery_potential =
      match v.battery_potential_as_millivolts with
      | some b => mapSet g.battery_potential a (b : ℚ)
      | none => mapRemove g.battery_potential a := rfl

theorem usv_movement_counter (g : RuuviGauges) (a : String) (v : SensorValues)
    (now : Nat) :
    (update_sensor_values g a v now).movement_counter =
      match v.movement_counter with
      | some c => mapSet g.movement_counter a (c : Int)
      | none => mapRemove g.movement_counter a := rfl

theorem usv_sequence_number (g : RuuviGauges) (a : String) (v : SensorValues)
    (now : Nat) :
    (update_sensor_values g a v now).sequence_number =
      match v.measurement_sequence_number with
      | some s => mapSet g.sequence_number a (s : Int)
      | none => mapRemove g.sequence_number a := rfl

/-- The metric fields of the state after folding `remove_sensor_values` over a
list of addresses are the corresponding folds of `mapRemove`; `last_seen` is
untouched. -/
theorem foldl_remove_fields (l : List String) (g : RuuviGauges) :
    (l.foldl remove_sensor_values g).temperature = l.foldl mapRemove g.temperature ∧
    (l.foldl remove_sensor_values g).humidity = l.foldl mapRemove g.humidity ∧
    (l.foldl remove_sensor_values g).pressure = l.foldl mapRemove g.pressure ∧
    (l.foldl remove_sensor_values g).battery_potential =
      l.foldl mapRemove g.battery_potential ∧
    (l.foldl remove_sensor_values g).movement_counter =
      l.foldl mapRemove g.movement_counter ∧
    (l.foldl remove_sensor_values g).sequence_number =
      l.foldl mapRemove g.sequence_number ∧
    (l.foldl remove_sensor_values g).last_seen = g.last_seen := by
  induction l generalizing g with
  | nil => exact ⟨rfl, rfl, rfl, rfl, rfl, rfl, rfl⟩
  | cons a l ih =>
    simpa [List.foldl_cons, remove_sensor_values] using ih (remove_sensor_values g a)

theorem mapLookup_foldl_mapRemove {V : Type} (l : List String)
    (m : List (String × V)) (k : String) :
    mapLookup (l.foldl mapRemove m) k =
      if k ∈ l then none else mapLookup m k := by
  induction l generalizing m with
  | nil => simp
  | cons a l ih =>
    simp only [List.foldl_cons, ih, List.mem_cons]
    by_cases h1 : k ∈ l
    · simp [h1]
    · by_cases h2 : k = a
      · simp [h1, h2, mapLookup_mapRemove_self]
      · simp [h1, h2, mapLookup_mapRemove_ne m h2]

theorem mem_stale_keys_iff {now : Nat} {l : List (String × Nat)} {k : String} :
    k ∈ stale_keys now l ↔
      ∃ t, (k, t) ∈ l ∧ STALE_TIMEOUT ≤ now - t := by
  induction l with
  | nil => simp [stale_keys]
  | cons p rest ih =>
    obtain ⟨pk, pv⟩ := p
    by_cases hf : now - pv < STALE_TIMEOUT
    · simp only [stale_keys, if_pos hf, ih, List.mem_cons, Prod.mk.injEq]
      constructor
      · rintro ⟨t, ht, hs⟩
        exact ⟨t, Or.inr ht, hs⟩
      · rintro ⟨t, (⟨hk, hv⟩ | ht), hs⟩
        · subst hv
          exact absurd hs (not_le.mpr hf)
        · exact ⟨t, ht, hs⟩
    · simp only [stale_keys, if_neg hf, List.mem_cons, ih, Prod.mk.injEq]
      constructor
      · rintro (h3 | ⟨t, ht, hs⟩)
        · exact ⟨pv, Or.inl ⟨h3, rfl⟩, not_lt.mp hf⟩
        · exact ⟨t, Or.inr ht, hs⟩
      · rintro ⟨t, (⟨hk, hv⟩ | ht), hs⟩
        · exact Or.inl hk
        · exact Or.inr ⟨t, ht, hs⟩

theorem mapLookup_retain_fresh_of_fresh {now : Nat} {l : List (String × Nat)}
    {k : String} {t : Nat} (h : mapLookup l k = some t)
    (hf : now - t < STALE_TIMEOUT) :
    mapLookup (retain_fresh now l) k = some t := by
  induction l with
  | nil => simp [mapLookup] at h
  | cons p rest ih =>
    obtain ⟨pk, pv⟩ := p
    by_cases hp : pk = k
    · simp only [mapLookup, if_pos hp] at h
      obtain rfl : pv = t := Option.some.inj h
      simp [retain_fresh, if_pos hf, mapLookup, hp]
    · simp only [mapLookup, if_neg hp] at h
      by_cases hk : now - pv < STALE_TIMEOUT
      · simp [retain_fresh, if_pos hk, mapLookup, hp, ih h]
      · simp [retain_fresh, if_neg hk, ih h]

theorem mapLookup_retain_fresh_of_none {now : Nat} {l : List (String × Nat)}
    {k : String} (h : mapLookup l k = none) :
    mapLookup (retain_fresh now l) k = none := by
  induction l with
  | nil => simp [retain_fresh, mapLookup]
  | cons p rest ih =>
    obtain ⟨pk, pv⟩ := p
    by_cases hp : pk = k
    · simp [mapLookup, hp] at h
    · simp only [mapLookup, if_neg hp] at h
      by_cases hk : now - pv < STALE_TIMEOUT
      · simp [retain_fresh, if_pos hk, mapLookup, hp, ih h]
      · simp [retain_fresh, if_neg hk, ih h]

theorem mapLookup_retain_fresh_of_all_stale {now : Nat}
    {l : List (String × Nat)} {k : String}
    (h : ∀ t, (k, t) ∈ l → STALE_TIMEOUT ≤ now - t) :
    mapLookup (retain_fresh now l) k = none := by
  induction l with
  | nil => simp [retain_fresh, mapLookup]
  | cons p rest ih =>
    obtain ⟨pk, pv⟩ := p
    have hrest : ∀ t, (k, t) ∈ rest → STALE_TIMEOUT ≤ now - t :=
      fun t ht => h t (List.mem_cons_of_mem _ ht)
    by_cases hk : now - pv < STALE_TIMEOUT
    · simp only [retain_fresh, if_pos hk]
      by_cases hp : pk = k
      · exact absurd (h pv (by rw [hp]; exact List.mem_cons_self _ _)) (by omega)
      · simp [mapLookup, hp, ih hrest]
    · simp [retain_fresh, if_neg hk, ih hrest]

theorem mem_retain_fresh {now : Nat} {l : List (String × Nat)}
    {p : String × Nat} (h : p ∈ retain_fresh now l) : p ∈ l := by
  induction l with
  | nil => simp [retain_fresh] at h
  | cons q rest ih =>
    by_cases hk : now - q.2 < STALE_TIMEOUT
    · simp only [retain_fresh, if_pos hk] at h
      rcases List.mem_cons.mp h with h3 | h3
      · exact List.mem_cons.mpr (Or.inl h3)
      · exact List.mem_cons_of_mem _ (ih h3)
    · simp only [retain_fresh, if_neg hk] at h
      exact List.mem_cons_of_mem _ (ih h)

/-- Well-formedness of a registry state: the `last_seen` table, being a
`HashMap`, holds at most one entry per address. Every state the program
reaches has this shape. -/
def WF (g : RuuviGauges) : Prop := (g.last_seen.map Prod.fst).Nodup

theorem uniq_of_nodup {l : List (String × Nat)} (h : (l.map Prod.fst).Nodup)
    {a : String} {t1 t2 : Nat} (h1 : (a, t1) ∈ l) (h2 : (a, t2) ∈ l) :
    t1 = t2 := by
  induction l with
  | nil => simp at h1
  | cons p rest ih =>
    obtain ⟨pk, pv⟩ := p
    simp only [List.map_cons, List.nodup_cons] at h
    rcases List.mem_cons.mp h1 with e1 | e1 <;>
      rcases List.mem_cons.mp h2 with e2 | e2
    · rw [Prod.mk.injEq] at e1 e2
      rw [e1.2, e2.2]
    · rw [Prod.mk.injEq] at e1
      exact absurd (List.mem_map.mpr ⟨(a, t2), e2, e1.1⟩) h.1
    · rw [Prod.mk.injEq] at e2
      exact absurd (List.mem_map.mpr ⟨(a, t1), e1, e2.1⟩) h.1
    · exact ih h.2 e1 e2

theorem sweep_last_seen (g : RuuviGauges) (now : Nat) :
    (sweep g now).last_seen = retain_fresh now g.last_seen := rfl

theorem sweep_lookup_temperature (g : RuuviGauges) (now : Nat) (a : String) :
    mapLookup (sweep g now).temperature a =
      if a ∈ stale_keys now g.last_seen then none
      else mapLookup g.temperature a := by
  have h := (foldl_remove_fields (stale_keys now g.last_seen) g).1
  show mapLookup ((stale_keys now g.last_seen).foldl remove_sensor_values g).temperature a = _
  rw [h, mapLookup_foldl_mapRemove]

theorem sweep_lookup_humidity (g : RuuviGauges) (now : Nat) (a : String) :
    mapLookup (sweep g now).humidity a =
      if a ∈ stale_keys now g.last_seen then none
      else mapLookup g.humidity a := by
  have h := (foldl_remove_fields (stale_keys now g.last_seen) g).2.1
  show mapLookup ((stale_keys now g.last_seen).foldl remove_sensor_values g).humidity a = _
  rw [h, mapLookup_foldl_mapRemove]

theorem sweep_lookup_pressure (g : RuuviGauges) (now : Nat) (a : String) :
    mapLookup (sweep g now).pressure a =
      if a ∈ stale_keys now g.last_seen then none
      else mapLookup g.pressure a := by
  have h := (foldl_remove_fields (stale_keys now g.last_seen) g).2.2.1
  show mapLookup ((stale_keys now g.last_seen).foldl remove_sensor_values g).pressure a = _
  rw [h, mapLookup_foldl_mapRemove]

theorem sweep_lookup_battery_potential (g : RuuviGauges) (now : Nat)
    (a : String) :
    mapLookup (sweep g now).battery_potential a =
      if a ∈ stale_keys now g.last_seen then none
      else mapLookup g.battery_potential a := by
  have h := (foldl_remove_fields (stale_keys now g.last_seen) g).2.2.2.1
  show mapLookup ((stale_keys now g.last_seen).foldl remove_sensor_values g).battery_potential a = _
  rw [h, mapLookup_foldl_mapRemove]

theorem sweep_lookup_movement_counter (g : RuuviGauges) (now : Nat)
    (a : String) :
    mapLookup (sweep g now).movement_counter a =
      if a ∈ stale_keys now g.last_seen then none
      else mapLookup g.movement_counter a := by
  have h := (foldl_remove_fields (stale_keys now g.last_seen) g).2.2.2.2.1
  show mapLookup ((stale_keys now g.last_seen).foldl remove_sensor_values g).movement_counter a = _
  rw [h, mapLookup_foldl_mapRemove]

theorem sweep_lookup_sequence_number (g : RuuviGauges) (now : Nat)
    (a : String) :
    mapLookup (sweep g now).sequence_number a =
      if a ∈ stale_keys now g.last_seen then none
      else mapLookup g.sequence_number a := by
  have h := (foldl_remove_fields (stale_keys now g.last_seen) g).2.2.2.2.2.1
  show mapLookup ((stale_keys now g.last_seen).foldl remove_sensor_values g).sequence_number a = _
  rw [h, mapLookup_foldl_mapRemove]

/-- An address whose only `last_seen` timestamp is fresh is not among the
swept keys. -/
theorem not_mem_stale_keys_of_fresh {g : RuuviGauges} {now : Nat} {a : String}
    {t : Nat} (huniq : ∀ u, (a, u) ∈ g.last_seen → u = t)
    (hf : now - t < STALE_TIMEOUT) : a ∉ stale_keys now g.last_seen := by
  intro hmem
  obtain ⟨u, hu, hs⟩ := mem_stale_keys_iff.mp hmem
  rw [huniq u hu] at hs
  exact absurd hs (not_le.mpr hf)

/-- One sweep tick leaves an address with a fresh, unique timestamp fully
untouched: its timestamp and all six metric entries survive. -/
theorem sweep_keeps {g : RuuviGauges} {now : Nat} {a : String} {t : Nat}
    (hl : mapLookup g.last_seen a = some t)
    (huniq : ∀ u, (a, u) ∈ g.last_seen → u = t)
    (hf : now - t < STALE_TIMEOUT) :
    mapLookup (sweep g now).last_seen a = some t ∧
    mapLookup (sweep g now).temperature a = mapLookup g.temperature a ∧
    mapLookup (sweep g now).humidity a = mapLookup g.humidity a ∧
    mapLookup (sweep g now).pressure a = mapLookup g.pressure a ∧
    mapLookup (sweep g now).battery_potential a =
      mapLookup g.battery_potential a ∧
    mapLookup (sweep g now).movement_counter a =
      mapLookup g.movement_counter a ∧
    mapLookup (sweep g now).sequence_number a =
      mapLookup g.sequence_number a := by
  have hstale : a ∉ stale_keys now g.last_seen :=
    not_mem_stale_keys_of_fresh huniq hf
  refine ⟨?_, ?_, ?_, ?_, ?_, ?_, ?_⟩
  · rw [sweep_last_seen]
    exact mapLookup_retain_fresh_of_fresh hl hf
  · rw [sweep_lookup_temperature, if_neg hstale]
  · rw [sweep_lookup_humidity, if_neg hstale]
  · rw [sweep_lookup_pressure, if_neg hstale]
  · rw [sweep_lookup_battery_potential, if_neg hstale]
  · rw [sweep_lookup_movement_counter, if_neg hstale]
  · rw [sweep_lookup_sequence_number, if_neg hstale]

/-- One sweep tick evicts an address with a stale, unique timestamp from the
`last_seen` table and from all six metric maps. -/
theorem sweep_evicts {g : RuuviGauges} {now : Nat} {a : String} {t : Nat}
    (hl : mapLookup g.last_seen a = some t)
    (huniq : ∀ u, (a, u) ∈ g.last_seen → u = t)
    (hs : STALE_TIMEOUT ≤ now - t) :
    mapLookup (sweep g now).last_seen a = none ∧
    mapLookup (sweep g now).temperature a = none ∧
    mapLookup (sweep g now).humidity a = none ∧
    mapLookup (sweep g now).pressure a = none ∧
    mapLookup (sweep g now).battery_potential a = none ∧
    mapLookup (sweep g now).movement_counter a = none ∧
    mapLookup (sweep g now).sequence_number a = none := by
  have hstale : a ∈ stale_keys now g.last_seen :=
    mem_stale_keys_iff.mpr ⟨t, mem_of_mapLookup hl, hs⟩
  refine ⟨?_, ?_, ?_, ?_, ?_, ?_, ?_⟩
  · rw [sweep_last_seen]
    refine mapLookup_retain_fresh_of_all_stale ?_
    intro u hu
    rw [huniq u hu]
    exact hs
  · rw [sweep_lookup_temperature, if_pos hstale]
  · rw [sweep_lookup_humidity, if_pos hstale]
  · rw [sweep_lookup_pressure, if_pos hstale]
  · rw [sweep_lookup_battery_potential, if_pos hstale]
  · rw [sweep_lookup_movement_counter, if_pos hstale]
  · rw [sweep_lookup_sequence_number, if_pos hstale]

/-- One sweep tick leaves an address the `last_seen` table does not track
fully untouched. -/
theorem sweep_untracked {g : RuuviGauges} {now : Nat} {a : String}
    (hl : mapLookup g.last_seen a = none) :
    mapLookup (sweep g now).last_seen a = none ∧
    mapLookup (sweep g now).temperature a = mapLookup g.temperature a ∧
    mapLookup (sweep g now).humidity a = mapLookup g.humidity a ∧
    mapLookup (sweep g now).pressure a = mapLookup g.pressure a ∧
    mapLookup (sweep g now).battery_potential a =
      mapLookup g.battery_potential a ∧
    mapLookup (sweep g now).movement_counter a =
      mapLookup g.movement_counter a ∧
    mapLookup (sweep g now).sequence_number a =
      mapLookup g.sequence_number a := by
  have hstale : a ∉ stale_keys now g.last_seen := by
    intro hmem
    obtain ⟨u, hu, _⟩ := mem_stale_keys_iff.mp hmem
    exact mapLookup_eq_none_iff.mp hl u hu
  refine ⟨?_, ?_, ?_, ?_, ?_, ?_, ?_⟩
  · rw [sweep_last_seen]
    exact mapLookup_retain_fresh_of_none hl
  · rw [sweep_lookup_temperature, if_neg hstale]
  · rw [sweep_lookup_humidity, if_neg hstale]
  · rw [sweep_lookup_pressure, if_neg hstale]
  · rw [sweep_lookup_battery_potential, if_neg hstale]
  · rw [sweep_lookup_movement_counter, if_neg hstale]
  · rw [sweep_lookup_sequence_number, if_neg hstale]

/-- The unique-timestamp assumption for an address that was just recorded. -/
theorem uniq_after_record (g : RuuviGauges) (a : String) (v : SensorValues)
    (now : Nat) :
    ∀ u, (a, u) ∈ (update_sensor_values g a v now).last_seen → u = now := by
  intro u hu
  rw [usv_last_seen] at hu
  rcases mem_mapSet_iff.mp hu with ⟨_, hv⟩ | ⟨_, hne⟩
  · exact hv
  · exact absurd rfl hne

/-- The unique-timestamp assumption survives a sweep tick (the retained table
is a sublist of the old one). -/
theorem uniq_after_sweep {g : RuuviGauges} {a : String} {t : Nat} (now : Nat)
    (huniq : ∀ u, (a, u) ∈ g.last_seen → u = t) :
    ∀ u, (a, u) ∈ (sweep g now).last_seen → u = t := by
  intro u hu
  rw [sweep_last_seen] at hu
  exact huniq u (mem_retain_fresh hu)

/-- `update_sensor_values` touches no entry of any other address. -/
theorem usv_lookup_other {g : RuuviGauges} {a : String} {v : SensorValues}
    {now : Nat} {b : String} (h : b ≠ a) :
    mapLookup (update_sensor_values g a v now).last_seen b =
      mapLookup g.last_seen b ∧
    mapLookup (update_sensor_values g a v now).temperature b =
      mapLookup g.temperature b ∧
    mapLookup (update_sensor_values g a v now).humidity b =
      mapLookup g.humidity b ∧
    mapLookup (update_sensor_values g a v now).pressure b =
      mapLookup g.pressure b ∧
    mapLookup (update_sensor_values g a v now).battery_potential b =
      mapLookup g.battery_potential b ∧
    mapLookup (update_sensor_values g a v now).movement_counter b =
      mapLookup g.movement_counter b ∧
    mapLookup (update_sensor_values g a v now).sequence_number b =
      mapLookup g.sequence_number b := by
  refine ⟨?_, ?_, ?_, ?_, ?_, ?_, ?_⟩
  · rw [usv_last_seen]
    exact mapLookup_mapSet_ne _ _ h
  · rw [usv_temperature]
    cases hv : v.temperature_as_millicelsius <;> simp only [hv]
    · exact mapLookup_mapRemove_ne _ h
    · exact mapLookup_mapSet_ne _ _ h
  · rw [usv_humidity]
    cases hv : v.humidity_as_ppm <;> simp only [hv]
    · exact mapLookup_mapRemove_ne _ h
    · exact mapLookup_mapSet_ne _ _ h
  · rw [usv_pressure]
    cases hv : v.pressure_as_pascals <;> simp only [hv]
    · exact mapLookup_mapRemove_ne _ h
    · exact mapLookup_mapSet_ne _ _ h
  · rw [usv_battery_potential]
    cases hv : v.battery_potential_as_millivolts <;> simp only [hv]
    · exact mapLookup_mapRemove_ne _ h
    · exact mapLookup_mapSet_ne _ _ h
  · rw [usv_movement_counter]
    cases hv : v.movement_counter <;> simp only [hv]
    · exact mapLookup_mapRemove_ne _ h
    · exact mapLookup_mapSet_ne _ _ h
  · rw [usv_sequence_number]
    cases hv : v.measurement_sequence_number <;> simp only [hv]
    · exact mapLookup_mapRemove_ne _ h
    · exact mapLookup_mapSet_ne _ _ h

theorem mem_gather_humidity {g : RuuviGauges} {a : String} {q : ℚ} :
    (Quantity.humidity, a, q) ∈ gather g ↔ (a, q) ∈ g.humidity := by
  simp [gather]

theorem mem_gather_temperature {g : RuuviGauges} {a : String} {q : ℚ} :
    (Quantity.temperature, a, q) ∈ gather g ↔ (a, q) ∈ g.temperature := by
  simp [gather]

theorem mem_gather_pressure {g : RuuviGauges} {a : String} {q : ℚ} :
    (Quantity.pressure, a, q) ∈ gather g ↔ (a, q) ∈ g.pressure := by
  simp [gather]

theorem mem_gather_battery_potential {g : RuuviGauges} {a : String} {q : ℚ} :
    (Quantity.battery_potential, a, q) ∈ gather g ↔
      (a, q) ∈ g.battery_potential := by
  simp [gather]

theorem mem_gather_movement_counter {g : RuuviGauges} {a : String} {q : ℚ} :
    (Quantity.movement_counter, a, q) ∈ gather g ↔
      ∃ z : Int, (a, z) ∈ g.movement_counter ∧ (z : ℚ) = q := by
  simp only [gather, List.mem_append, List.mem_map, Prod.mk.injEq]
  constructor
  · rintro (((((⟨⟨pk, pv⟩, hp, hc, hk, hv⟩ | ⟨⟨pk, pv⟩, hp, hc, hk, hv⟩) |
      ⟨⟨pk, pv⟩, hp, hc, hk, hv⟩) | ⟨⟨pk, pv⟩, hp, hc, hk, hv⟩) |
      ⟨⟨pk, pv⟩, hp, hc, hk, hv⟩) | ⟨⟨pk, pv⟩, hp, hc, hk, hv⟩)
    · exact absurd hc (by simp)
    · exact absurd hc (by simp)
    · exact absurd hc (by simp)
    · exact absurd hc (by simp)
    · exact ⟨pv, by rw [← hk]; exact hp, hv⟩
    · exact absurd hc (by simp)
  · rintro ⟨z, hz, hq⟩
    exact Or.inl (Or.inr ⟨(a, z), hz, trivial, rfl, hq⟩)

theorem mem_gather_sequence_number {g : RuuviGauges} {a : String} {q : ℚ} :
    (Quantity.sequence_number, a, q) ∈ gather g ↔
      ∃ z : Int, (a, z) ∈ g.sequence_number ∧ (z : ℚ) = q := by
  simp only [gather, List.mem_append, List.mem_map, Prod.mk.injEq]
  constructor
  · rintro (((((⟨⟨pk, pv⟩, hp, hc, hk, hv⟩ | ⟨⟨pk, pv⟩, hp, hc, hk, hv⟩) |
      ⟨⟨pk, pv⟩, hp, hc, hk, hv⟩) | ⟨⟨pk, pv⟩, hp, hc, hk, hv⟩) |
      ⟨⟨pk, pv⟩, hp, hc, hk, hv⟩) | ⟨⟨pk, pv⟩, hp, hc, hk, hv⟩)
    · exact absurd hc (by simp)
    · exact absurd hc (by simp)
    · exact absurd hc (by simp)
    · exact absurd hc (by simp)
    · exact absurd hc (by simp)
    · exact ⟨pv, by rw [← hk]; exact hp, hv⟩
  · rintro ⟨z, hz, hq⟩
    exact Or.inr ⟨(a, z), hz, trivial, rfl, hq⟩

theorem mem_mapSet_self {V : Type} (m : List (String × V)) (k : String)
    (v : V) : (k, v) ∈ mapSet m k v :=
  List.mem_cons_self _ _

/-- The states the program can reach: the empty registry of
`create_and_register`, then any interleaving of `update_sensor_values` calls
and cleanup ticks (the mutex serialises them). -/
inductive Reachable : RuuviGauges → Prop
  | init : Reachable initialGauges
  | record (g : RuuviGauges) (a : String) (v : SensorValues) (now : Nat) :
      Reachable g → Reachable (update_sensor_values g a v now)
  | tick (g : RuuviGauges) (now : Nat) :
      Reachable g → Reachable (sweep g now)

/-- An address the `last_seen` table does not track is exposed by none of the
six metric maps. -/
def AbsentConsistent (g : RuuviGauges) : Prop :=
  ∀ a, mapLookup g.last_seen a = none →
    mapLookup g.temperature a = none ∧
    mapLookup g.humidity a = none ∧
    mapLookup g.pressure a = none ∧
    mapLookup g.battery_potential a = none ∧
    mapLookup g.movement_counter a = none ∧
    mapLookup g.sequence_number a = none

theorem reachable_absent_consistent {g : RuuviGauges} (h : Reachable g) :
    AbsentConsistent g := by
  induction h with
  | init =>
    intro a _
    exact ⟨rfl, rfl, rfl, rfl, rfl, rfl⟩
  | record g a v now hr ih =>
    intro b hb
    by_cases hba : b = a
    · subst hba
      rw [usv_last_seen, mapLookup_mapSet_self] at hb
      simp at hb
    · obtain ⟨h1, h2, h3, h4, h5, h6, h7⟩ :=
        @usv_lookup_other g a v now b hba
      rw [h1] at hb
      obtain ⟨i1, i2, i3, i4, i5, i6⟩ := ih b hb
      exact ⟨h2.trans i1, h3.trans i2, h4.trans i3, h5.trans i4, h6.trans i5,
        h7.trans i6⟩
  | tick g now hr ih =>
    intro b hb
    cases hl : mapLookup g.last_seen b with
    | none =>
      obtain ⟨_, h2, h3, h4, h5, h6, h7⟩ := @sweep_untracked g now b hl
      obtain ⟨i1, i2, i3, i4, i5, i6⟩ := ih b hl
      exact ⟨h2.trans i1, h3.trans i2, h4.trans i3, h5.trans i4, h6.trans i5,
        h7.trans i6⟩
    | some t =>
      by_cases hf : now - t < STALE_TIMEOUT
      · rw [sweep_last_seen, mapLookup_retain_fresh_of_fresh hl hf] at hb
        simp at hb
      · have hmem : b ∈ stale_keys now g.last_seen :=
          mem_stale_keys_iff.mpr ⟨t, mem_of_mapLookup hl, not_lt.mp hf⟩
        refine ⟨?_, ?_, ?_, ?_, ?_, ?_⟩
        · rw [sweep_lookup_temperature, if_pos hmem]
        · rw [sweep_lookup_humidity, if_pos hmem]
        · rw [sweep_lookup_pressure, if_pos hmem]
        · rw [sweep_lookup_battery_potential, if_pos hmem]
        · rw [sweep_lookup_movement_counter, if_pos hmem]
        · rw [sweep_lookup_sequence_number, if_pos hmem]

/-- Iterated cleanup ticks at the given clock readings. -/
def sweep_times (g : RuuviGauges) (ts : List Nat) : RuuviGauges :=
  ts.foldl sweep g

/-- A sequence of cleanup ticks, each within the staleness window of an
address's unique timestamp, preserves that address completely. -/
theorem sweep_times_keeps {a : String} {t : Nat} :
    ∀ (ts : List Nat) (g : RuuviGauges),
      (∀ τ ∈ ts, τ - t < STALE_TIMEOUT) →
      mapLookup g.last_seen a = some t →
      (∀ u, (a, u) ∈ g.last_seen → u = t) →
      mapLookup (sweep_times g ts).last_seen a = some t ∧
      (∀ u, (a, u) ∈ (sweep_times g ts).last_seen → u = t) ∧
      mapLookup (sweep_times g ts).temperature a =
        mapLookup g.temperature a := by
  intro ts
  induction ts with
  | nil =>
    intro g _ hl hu
    exact ⟨hl, hu, rfl⟩
  | cons τ ts ih =>
    intro g hts hl hu
    have hfresh : τ - t < STALE_TIMEOUT := hts τ (List.mem_cons_self _ _)
    have hk := sweep_keeps hl hu hfresh
    have hu2 := uniq_after_sweep (g := g) τ hu
    have hrec := ih (sweep g τ) (fun τ2 h2 => hts τ2 (List.mem_cons_of_mem _ h2))
      hk.1 hu2
    exact ⟨hrec.1, hrec.2.1, hrec.2.2.trans hk.2.1⟩

/-- A reading carrying all six fields, used as a concrete input. -/
def exReading : SensorValues :=
  { temperature_as_millicelsius := some 21500,
    humidity_as_ppm := some 4550,
    pressure_as_pascals := some 101325,
    battery_potential_as_millivolts := some 2950,
    movement_counter := some 17,
    measurement_sequence_number := some 205 }

/-- A reading carrying temperature and humidity only. -/
def readingTempHum : SensorValues :=
  { temperature_as_millicelsius := some 21500,
    humidity_as_ppm := some 4550,
    pressure_as_pascals := none,
    battery_potential_as_millivolts := none,
    movement_counter := none,
    measurement_sequence_number := none }

/-- A reading carrying temperature only. -/
def readingTempOnly : SensorValues :=
  { temperature_as_millicelsius := some 21500,
    humidity_as_ppm := none,
    pressure_as_pascals := none,
    battery_potential_as_millivolts := none,
    movement_counter := none,
    measurement_sequence_number := none }

/-- A concrete two-device state: address aa recorded at time 0, address bb at
time 15. -/
def exGauges : RuuviGauges :=
  update_sensor_values (update_sensor_values initialGauges "aa" exReading 0)
    "bb" exReading 15

/-! ### Claim theorems -/

/-- C1: one sweep tick at clock reading `now` evicts exactly the addresses
whose timestamp satisfies `now - LastSeen[address] >= STALE_TIMEOUT`
(10 seconds): each such address is removed from all six metric maps and from
`last_seen`; every address with a fresh timestamp, and every untracked
address, is left completely untouched. The sweep covers the whole table
(stated for every address), and the tick period and timeout constants are 1
and 10 seconds respectively. -/
theorem sweep_evicts_exactly_stale (g : RuuviGauges) (now : Nat)
    (hwf : WF g) :
    CLEANUP_PERIOD = 1 ∧ STALE_TIMEOUT = 10 ∧
    ∀ a : String,
      (∀ t, mapLookup g.last_seen a = some t → STALE_TIMEOUT ≤ now - t →
        mapLookup (sweep g now).last_seen a = none ∧
        mapLookup (sweep g now).temperature a = none ∧
        mapLookup (sweep g now).humidity a = none ∧
        mapLookup (sweep g now).pressure a = none ∧
        mapLookup (sweep g now).battery_potential a = none ∧
        mapLookup (sweep g now).movement_counter a = none ∧
        mapLookup (sweep g now).sequence_number a = none) ∧
      (∀ t, mapLookup g.last_seen a = some t → now - t < STALE_TIMEOUT →
        mapLookup (sweep g now).last_seen a = some t ∧
        mapLookup (sweep g now).temperature a = mapLookup g.temperature a ∧
        mapLookup (sweep g now).humidity a = mapLookup g.humidity a ∧
        mapLookup (sweep g now).pressure a = mapLookup g.pressure a ∧
        mapLookup (sweep g now).battery_potential a =
          mapLookup g.battery_potential a ∧
        mapLookup (sweep g now).movement_counter a =
          mapLookup g.movement_counter a ∧
        mapLookup (sweep g now).sequence_number a =
          mapLookup g.sequence_number a) ∧
      (mapLookup g.last_seen a = none →
        mapLookup (sweep g now).last_seen a = none ∧
        mapLookup (sweep g now).temperature a = mapLookup g.temperature a ∧
        mapLookup (sweep g now).humidity a = mapLookup g.humidity a ∧
        mapLookup (sweep g now).pressure a = mapLookup g.pressure a ∧
        mapLookup (sweep g now).battery_potential a =
          mapLookup g.battery_potential a ∧
        mapLookup (sweep g now).movement_counter a =
          mapLookup g.movement_counter a ∧
        mapLookup (sweep g now).sequence_number a =
          mapLookup g.sequence_number a) := by
  refine ⟨rfl, rfl, fun a => ⟨?_, ?_, ?_⟩⟩
  · intro t hl hs
    exact sweep_evicts hl
      (fun u hu => uniq_of_nodup hwf hu (mem_of_mapLookup hl)) hs
  · intro t hl hf
    exact sweep_keeps hl
      (fun u hu => uniq_of_nodup hwf hu (mem_of_mapLookup hl)) hf
  · intro hl
    exact sweep_untracked hl

/-- C1 witness: in the concrete two-device state, a sweep at time 20 evicts
the device last seen at time 0 everywhere and keeps the device last seen at
time 15 untouched. -/
theorem sweep_evicts_exactly_stale_witness :
    WF exGauges ∧
    mapLookup (sweep exGauges 20).last_seen "aa" = none ∧
    mapLookup (sweep exGauges 20).temperature "aa" = none ∧
    mapLookup (sweep exGauges 20).last_seen "bb" = some 15 ∧
    mapLookup (sweep exGauges 20).temperature "bb" =
      mapLookup exGauges.temperature "bb" := by
  have hwf : WF exGauges := by unfold WF; decide
  have h := sweep_evicts_exactly_stale exGauges 20 hwf
  refine ⟨hwf, ?_, ?_, ?_, ?_⟩
  · exact (((h.2.2 "aa").1) 0 (by decide) (by decide)).1
  · exact (((h.2.2 "aa").1) 0 (by decide) (by decide)).2.1
  · exact (((h.2.2 "bb").2.1) 15 (by decide) (by decide)).1
  · exact (((h.2.2 "bb").2.1) 15 (by decide) (by decide)).2.1

/-- C2: in the serialised interleaving the mutex enforces, a
`update_sensor_values` call for address A that completes before the sweep tick
locks and reads the table is seen with its fresh timestamp `t`; since the tick
racing that call runs within one `CLEANUP_PERIOD` of it (`now - t <=
CLEANUP_PERIOD < STALE_TIMEOUT`), the tick does not evict A: its timestamp and
all six of its metric entries survive unchanged. -/
theorem record_before_sweep_not_evicted (g : RuuviGauges) (a : String)
    (v : SensorValues) (t now : Nat) (hgap : now - t ≤ CLEANUP_PERIOD) :
    mapLookup (sweep (update_sensor_values g a v t) now).last_seen a =
      some t ∧
    mapLookup (sweep (update_sensor_values g a v t) now).temperature a =
      mapLookup (update_sensor_values g a v t).temperature a ∧
    mapLookup (sweep (update_sensor_values g a v t) now).humidity a =
      mapLookup (update_sensor_values g a v t).humidity a ∧
    mapLookup (sweep (update_sensor_values g a v t) now).pressure a =
      mapLookup (update_sensor_values g a v t).pressure a ∧
    mapLookup (sweep (update_sensor_values g a v t) now).battery_potential a =
      mapLookup (update_sensor_values g a v t).battery_potential a ∧
    mapLookup (sweep (update_sensor_values g a v t) now).movement_counter a =
      mapLookup (update_sensor_values g a v t).movement_counter a ∧
    mapLookup (sweep (update_sensor_values g a v t) now).sequence_number a =
      mapLookup (update_sensor_values g a v t).sequence_number a := by
  have hconst : CLEANUP_PERIOD < STALE_TIMEOUT := by decide
  have hfresh : now - t < STALE_TIMEOUT := by omega
  have hl : mapLookup (update_sensor_values g a v t).last_seen a = some t := by
    rw [usv_last_seen]
    exact mapLookup_mapSet_self _ _ _
  exact sweep_keeps hl (uniq_after_record g a v t) hfresh

/-- C2 witness: recording at time 0 and sweeping at time 1 keeps the
device. -/
theorem record_before_sweep_not_evicted_witness :
    1 - 0 ≤ CLEANUP_PERIOD ∧
    mapLookup (sweep (update_sensor_values initialGauges "aa" exReading 0)
      1).last_seen "aa" = some 0 := by
  have h := record_before_sweep_not_evicted initialGauges "aa" exReading 0 1
    (by decide)
  exact ⟨by decide, h.1⟩

/-- C3: `update_sensor_values` removes the address's entry from every quantity
map whose field is absent in the reading; in particular, after recording a
temperature-and-humidity reading and then a temperature-only reading for the
same address, the humidity entry for that address is absent from `gather`. -/
theorem record_removes_absent_fields (g : RuuviGauges) (a : String)
    (v1 v2 : SensorValues) (t1 t2 : Nat) :
    (v2.temperature_as_millicelsius = none →
      mapLookup (update_sensor_values g a v2 t2).temperature a = none) ∧
    (v2.humidity_as_ppm = none →
      mapLookup (update_sensor_values g a v2 t2).humidity a = none) ∧
    (v2.pressure_as_pascals = none →
      mapLookup (update_sensor_values g a v2 t2).pressure a = none) ∧
    (v2.battery_potential_as_millivolts = none →
      mapLookup (update_sensor_values g a v2 t2).battery_potential a = none) ∧
    (v2.movement_counter = none →
      mapLookup (update_sensor_values g a v2 t2).movement_counter a = none) ∧
    (v2.measurement_sequence_number = none →
      mapLookup (update_sensor_values g a v2 t2).sequence_number a = none) ∧
    (v2.humidity_as_ppm = none → ∀ q : ℚ,
      (Quantity.humidity, a, q) ∉
        gather (update_sensor_values (update_sensor_values g a v1 t1)
          a v2 t2)) := by
  refine ⟨?_, ?_, ?_, ?_, ?_, ?_, ?_⟩
  · intro h
    rw [usv_temperature, h, mapLookup_mapRemove_self]
  · intro h
    rw [usv_humidity, h, mapLookup_mapRemove_self]
  · intro h
    rw [usv_pressure, h, mapLookup_mapRemove_self]
  · intro h
    rw [usv_battery_potential, h, mapLookup_mapRemove_self]
  · intro h
    rw [usv_movement_counter, h, mapLookup_mapRemove_self]
  · intro h
    rw [usv_sequence_number, h, mapLookup_mapRemove_self]
  · intro h q hmem
    have hl : mapLookup (update_sensor_values
        (update_sensor_values g a v1 t1) a v2 t2).humidity a = none := by
      rw [usv_humidity, h, mapLookup_mapRemove_self]
    exact mapLookup_eq_none_iff.mp hl q (mem_gather_humidity.mp hmem)

/-- C3 witness: after a temperature-and-humidity reading followed by a
temperature-only reading, the humidity entry of the address is gone from
`gather`. -/
theorem record_removes_absent_fields_witness :
    readingTempOnly.humidity_as_ppm = none ∧
    (Quantity.humidity, "aa", (4550 : ℚ) * (1 / 10000)) ∉
      gather (update_sensor_values (update_sensor_values initialGauges "aa"
        readingTempHum 0) "aa" readingTempOnly 5) := by
  have h := (record_removes_absent_fields initialGauges "aa" readingTempHum
    readingTempOnly 0 5).2.2.2.2.2.2
  exact ⟨rfl, h rfl ((4550 : ℚ) * (1 / 10000))⟩

/-- C4 counterexample: the claim says `update_sensor_values` writes the
metric maps first and sets `last_seen` as its final step. On a concrete call
the first write in program order is the `last_seen` insert and the final one
is the sequence-number metric write, so the `last_seen` write is not the
final step. -/
theorem record_trace_last_seen_not_last :
    (record_trace "aa" exReading 5).head? =
      some (MetricOp.set_last_seen "aa" 5) ∧
    (record_trace "aa" exReading 5).getLast? =
      some (MetricOp.set_sequence_number "aa" 205) ∧
    (record_trace "aa" exReading 5).getLast? ≠
      some (MetricOp.set_last_seen "aa" 5) := by
  refine ⟨rfl, rfl, by decide⟩

/-- C4 amended: `update_sensor_values` first unconditionally sets
`last_seen[address] = now` (inside the lock scope) and then applies the six
per-quantity set-or-remove updates; the `last_seen` write precedes the
metric-map writes in program order, and executing the write sequence in that
order is exactly the state transformer `update_sensor_values`. -/
theorem record_trace_last_seen_first (g : RuuviGauges) (a : String)
    (v : SensorValues) (now : Nat) :
    record_trace a v now =
      MetricOp.set_last_seen a now :: metric_trace a v ∧
    applyTrace g (record_trace a v now) = update_sensor_values g a v now := by
  refine ⟨rfl, ?_⟩
  obtain ⟨t, h, p, b, m, q⟩ := v
  cases t <;> cases h <;> cases p <;> cases b <;> cases m <;> cases q <;> rfl

/-- C5: `remove_sensor_values` clears the address from all six metric maps
regardless of which of them currently hold an entry for it; it never touches
`last_seen` or any other address; and removing an entry that is not present
is a no-op on that map (and never an error: the removal result is ignored by
construction). -/
theorem remove_noop_and_independent (g : RuuviGauges) (a : String) :
    mapLookup (remove_sensor_values g a).temperature a = none ∧
    mapLookup (remove_sensor_values g a).humidity a = none ∧
    mapLookup (remove_sensor_values g a).pressure a = none ∧
    mapLookup (remove_sensor_values g a).battery_potential a = none ∧
    mapLookup (remove_sensor_values g a).movement_counter a = none ∧
    mapLookup (remove_sensor_values g a).sequence_number a = none ∧
    (remove_sensor_values g a).last_seen = g.last_seen ∧
    (∀ b, b ≠ a →
      mapLookup (remove_sensor_values g a).temperature b =
        mapLookup g.temperature b ∧
      mapLookup (remove_sensor_values g a).humidity b =
        mapLookup g.humidity b ∧
      mapLookup (remove_sensor_values g a).pressure b =
        mapLookup g.pressure b ∧
      mapLookup (remove_sensor_values g a).battery_potential b =
        mapLookup g.battery_potential b ∧
      mapLookup (remove_sensor_values g a).movement_counter b =
        mapLookup g.movement_counter b ∧
      mapLookup (remove_sensor_values g a).sequence_number b =
        mapLookup g.sequence_number b) ∧
    (mapLookup g.temperature a = none →
      (remove_sensor_values g a).temperature = g.temperature) ∧
    (mapLookup g.humidity a = none →
      (remove_sensor_values g a).humidity = g.humidity) ∧
    (mapLookup g.pressure a = none →
      (remove_sensor_values g a).pressure = g.pressure) ∧
    (mapLookup g.battery_potential a = none →
      (remove_sensor_values g a).battery_potential = g.battery_potential) ∧
    (mapLookup g.movement_counter a = none →
      (remove_sensor_values g a).movement_counter = g.movement_counter) ∧
    (mapLookup g.sequence_number a = none →
      (remove_sensor_values g a).sequence_number = g.sequence_number) := by
  refine ⟨mapLookup_mapRemove_self _ _, mapLookup_mapRemove_self _ _,
    mapLookup_mapRemove_self _ _, mapLookup_mapRemove_self _ _,
    mapLookup_mapRemove_self _ _, mapLookup_mapRemove_self _ _, rfl,
    fun b hb => ⟨mapLookup_mapRemove_ne _ hb, mapLookup_mapRemove_ne _ hb,
      mapLookup_mapRemove_ne _ hb, mapLookup_mapRemove_ne _ hb,
      mapLookup_mapRemove_ne _ hb, mapLookup_mapRemove_ne _ hb⟩,
    fun h => mapRemove_eq_self_of_none h, fun h => mapRemove_eq_self_of_none h,
    fun h => mapRemove_eq_self_of_none h, fun h => mapRemove_eq_self_of_none h,
    fun h => mapRemove_eq_self_of_none h, fun h => mapRemove_eq_self_of_none h⟩

/-- C5 witness: removing an address from the empty registry is a no-op on
every map, and in the two-device state removing aa clears aa's temperature
while leaving bb's entries alone. -/
theorem remove_noop_and_independent_witness :
    (remove_sensor_values initialGauges "aa").temperature =
      initialGauges.temperature ∧
    mapLookup (remove_sensor_values exGauges "aa").temperature "aa" = none ∧
    mapLookup (remove_sensor_values exGauges "aa").temperature "bb" =
      mapLookup exGauges.temperature "bb" := by
  refine ⟨(remove_noop_and_independent initialGauges "aa").2.2.2.2.2.2.2.2.1
    rfl, (remove_noop_and_independent exGauges "aa").1, ?_⟩
  exact ((remove_noop_and_independent exGauges "aa").2.2.2.2.2.2.2.1 "bb"
    (by decide)).1

/-- C6: for every field the reading carries, `update_sensor_values` makes
`gather` expose that quantity for the address with the fixed conversion:
temperature millidegrees times 1/1000, humidity parts-per-10000 times
1/10000, pressure pascals times 1/1000, battery potential millivolts
unchanged, movement counter and sequence number unchanged. -/
theorem record_exposes_converted_values (g : RuuviGauges) (a : String)
    (v : SensorValues) (now : Nat) :
    (∀ r : Int, v.temperature_as_millicelsius = some r →
      (Quantity.temperature, a, (r : ℚ) * (1 / 1000)) ∈
        gather (update_sensor_values g a v now)) ∧
    (∀ r : Nat, v.humidity_as_ppm = some r →
      (Quantity.humidity, a, (r : ℚ) * (1 / 10000)) ∈
        gather (update_sensor_values g a v now)) ∧
    (∀ r : Nat, v.pressure_as_pascals = some r →
      (Quantity.pressure, a, (r : ℚ) * (1 / 1000)) ∈
        gather (update_sensor_values g a v now)) ∧
    (∀ r : Nat, v.battery_potential_as_millivolts = some r →
      (Quantity.battery_potential, a, (r : ℚ)) ∈
        gather (update_sensor_values g a v now)) ∧
    (∀ r : Nat, v.movement_counter = some r →
      (Quantity.movement_counter, a, ((r : Int) : ℚ)) ∈
        gather (update_sensor_values g a v now)) ∧
    (∀ r : Nat, v.measurement_sequence_number = some r →
      (Quantity.sequence_number, a, ((r : Int) : ℚ)) ∈
        gather (update_sensor_values g a v now)) := by
  refine ⟨?_, ?_, ?_, ?_, ?_, ?_⟩
  · intro r hr
    refine mem_gather_temperature.mpr ?_
    rw [usv_temperature, hr]
    exact mem_mapSet_self _ _ _
  · intro r hr
    refine mem_gather_humidity.mpr ?_
    rw [usv_humidity, hr]
    exact mem_mapSet_self _ _ _
  · intro r hr
    refine mem_gather_pressure.mpr ?_
    rw [usv_pressure, hr]
    exact mem_mapSet_self _ _ _
  · intro r hr
    refine mem_gather_battery_potential.mpr ?_
    rw [usv_battery_potential, hr]
    exact mem_mapSet_self _ _ _
  · intro r hr
    refine mem_gather_movement_counter.mpr ⟨(r : Int), ?_, rfl⟩
    rw [usv_movement_counter, hr]
    exact mem_mapSet_self _ _ _
  · intro r hr
    refine mem_gather_sequence_number.mpr ⟨(r : Int), ?_, rfl⟩
    rw [usv_sequence_number, hr]
    exact mem_mapSet_self _ _ _

/-- C6 witness: recording the all-fields reading exposes the converted
temperature and the identity-converted battery potential. -/
theorem record_exposes_converted_values_witness :
    exReading.temperature_as_millicelsius = some 21500 ∧
    (Quantity.temperature, "aa", (21500 : ℚ) * (1 / 1000)) ∈
      gather (update_sensor_values initialGauges "aa" exReading 0) ∧
    (Quantity.battery_potential, "aa", (2950 : ℚ)) ∈
      gather (update_sensor_values initialGauges "aa" exReading 0) := by
  have h := record_exposes_converted_values initialGauges "aa" exReading 0
  exact ⟨rfl, h.1 21500 rfl, h.2.2.2.1 2950 rfl⟩

/-- C7: over all states reachable in the serialised semantics (the mutex
removes the race window), every address absent from `last_seen` is absent
from all six metric maps; sweep evictions remove the address from `last_seen`
and all six maps together, preserving the invariant. -/
theorem absent_addresses_expose_nothing (g : RuuviGauges)
    (h : Reachable g) : AbsentConsistent g :=
  reachable_absent_consistent h

/-- C7 witness: the invariant at the concrete reachable state obtained by
recording one device and sweeping it away 20 seconds later. -/
theorem absent_addresses_expose_nothing_witness :
    AbsentConsistent
      (sweep (update_sensor_values initialGauges "aa" exReading 0) 20) :=
  absent_addresses_expose_nothing _
    (Reachable.tick _ 20 (Reachable.record _ "aa" exReading 0 Reachable.init))

/-- C8: a second `update_sensor_values` at t = 9 overwrites the t = 0
timestamp, fully resetting the eviction clock: sweeps at 10 through 15 all
keep the address (so its entries are still in `gather` at t = 15), and only a
sweep 10 or more seconds after the last record (here at t = 19) evicts it
from `last_seen` and every metric map. -/
theorem refresh_resets_eviction_clock (g : RuuviGauges) (a : String)
    (v1 v2 : SensorValues) (r : Int)
    (hv : v2.temperature_as_millicelsius = some r) :
    mapLookup (update_sensor_values (update_sensor_values g a v1 0) a v2
      9).last_seen a = some 9 ∧
    mapLookup (sweep_times (update_sensor_values
      (update_sensor_values g a v1 0) a v2 9)
      [10, 11, 12, 13, 14, 15]).last_seen a = some 9 ∧
    (Quantity.temperature, a, (r : ℚ) * (1 / 1000)) ∈
      gather (sweep_times (update_sensor_values
        (update_sensor_values g a v1 0) a v2 9) [10, 11, 12, 13, 14, 15]) ∧
    mapLookup (sweep (sweep_times (update_sensor_values
      (update_sensor_values g a v1 0) a v2 9) [10, 11, 12, 13, 14, 15])
      19).last_seen a = none ∧
    mapLookup (sweep (sweep_times (update_sensor_values
      (update_sensor_values g a v1 0) a v2 9) [10, 11, 12, 13, 14, 15])
      19).temperature a = none := by
  have hl2 : mapLookup (update_sensor_values (update_sensor_values g a v1 0)
      a v2 9).last_seen a = some 9 := by
    rw [usv_last_seen]
    exact mapLookup_mapSet_self _ _ _
  have huniq2 := uniq_after_record (update_sensor_values g a v1 0) a v2 9
  have hts : ∀ τ ∈ [10, 11, 12, 13, 14, 15], τ - 9 < STALE_TIMEOUT := by
    decide
  have hchain := sweep_times_keeps [10, 11, 12, 13, 14, 15]
    (update_sensor_values (update_sensor_values g a v1 0) a v2 9) hts hl2
    huniq2
  have htemp2 : mapLookup (update_sensor_values (update_sensor_values g a v1
      0) a v2 9).temperature a = some ((r : ℚ) * (1 / 1000)) := by
    rw [usv_temperature, hv]
    exact mapLookup_mapSet_self _ _ _
  have hevict := sweep_evicts hchain.1 hchain.2.1 (by decide :
    STALE_TIMEOUT ≤ 19 - 9)
  refine ⟨hl2, hchain.1, ?_, hevict.1, hevict.2.1⟩
  exact mem_gather_temperature.mpr
    (mem_of_mapLookup (hchain.2.2.trans htemp2))

/-- C8 witness: the scenario instantiated with the concrete all-fields
reading. -/
theorem refresh_resets_eviction_clock_witness :
    exReading.temperature_as_millicelsius = some 21500 ∧
    mapLookup (sweep_times (update_sensor_values
      (update_sensor_values initialGauges "aa" exReading 0) "aa" exReading 9)
      [10, 11, 12, 13, 14, 15]).last_seen "aa" = some 9 ∧
    mapLookup (sweep (sweep_times (update_sensor_values
      (update_sensor_values initialGauges "aa" exReading 0) "aa" exReading 9)
      [10, 11, 12, 13, 14, 15]) 19).last_seen "aa" = none := by
  have h := refresh_resets_eviction_clock initialGauges "aa" exReading
    exReading 21500 rfl
  exact ⟨rfl, h.2.1, h.2.2.2.1⟩

/-- C9: serving a scrape is a pure read: for every method and path the
handler leaves the registry state unchanged (it can neither mutate
`last_seen` nor trigger an eviction), and a `GET /metrics` request answers
with status 200 and exactly the `gather` of the current state, while any
other request is answered 404 with an empty body. -/
theorem gather_is_pure_read (g : RuuviGauges) (method : HttpMethod)
    (path : String) :
    (handle_metrics_request g method path).2 = g ∧
    (handle_metrics_request g HttpMethod.get "/metrics").1.status = 200 ∧
    (handle_metrics_request g HttpMethod.get "/metrics").1.body = gather g ∧
    (method ≠ HttpMethod.get ∨ path ≠ "/metrics" →
      (handle_metrics_request g method path).1.status = 404 ∧
      (handle_metrics_request g method path).1.body = []) := by
  refine ⟨?_, rfl, rfl, ?_⟩
  · cases method
    · by_cases hp : path = "/metrics"
      · subst hp
        rfl
      · simp only [handle_metrics_request]
        split
        · exact absurd rfl hp
        · rfl
    · rfl
    · rfl
    · rfl
  · intro h
    cases method
    · rcases h with h | h
      · exact absurd rfl h
      · simp only [handle_metrics_request]
        split
        · exact absurd rfl h
        · exact ⟨rfl, rfl⟩
    · exact ⟨rfl, rfl⟩
    · exact ⟨rfl, rfl⟩
    · exact ⟨rfl, rfl⟩

/-- C9 witness: a scrape of the concrete two-device state returns the state
unchanged, and a wrong path gets a 404. -/
theorem gather_is_pure_read_witness :
    (handle_metrics_request exGauges HttpMethod.get "/metrics").2 =
      exGauges ∧
    (handle_metrics_request exGauges HttpMethod.get "/other").1.status =
      404 := by
  have h1 := gather_is_pure_read exGauges HttpMethod.get "/metrics"
  have h2 := gather_is_pure_read exGauges HttpMethod.get "/other"
  exact ⟨h1.1, (h2.2.2.2 (Or.inr (by decide))).1⟩

/-- A decoder that always fails, used as a concrete external decoder. -/
def exDec : Nat → List Nat → Except DecodeError SensorValues :=
  fun _ _ => Except.error DecodeError.decode_failed

/-- C10: the payload parser is a total function (it is defined by structural
case analysis, so it can never panic): on fewer than two bytes it returns
`none` without reading any byte, and otherwise it splits the first two bytes
as a little-endian manufacturer id, hands the remaining bytes to the external
decoder and discards any decode failure into `none`. -/
theorem parse_manufacturer_data_total
    (dec : Nat → List Nat → Except DecodeError SensorValues) :
    (∀ data : List Nat, data.length < 2 →
      parse_manufacturer_data dec data = none) ∧
    (∀ (b0 b1 : Nat) (rest : List Nat),
      parse_manufacturer_data dec (b0 :: b1 :: rest) =
        exceptOk (dec (u16_from_le_bytes b0 b1) rest)) ∧
    (∀ (b0 b1 : Nat) (rest : List Nat),
      dec (u16_from_le_bytes b0 b1) rest = Except.error
        DecodeError.decode_failed →
      parse_manufacturer_data dec (b0 :: b1 :: rest) = none) := by
  refine ⟨?_, ?_, ?_⟩
  · intro data h
    unfold parse_manufacturer_data
    rw [dif_neg (by omega)]
  · intro b0 b1 rest
    unfold parse_manufacturer_data
    rw [dif_pos (by simp)]
    rfl
  · intro b0 b1 rest h
    unfold parse_manufacturer_data
    rw [dif_pos (by simp)]
    show exceptOk (dec (u16_from_le_bytes b0 b1) rest) = none
    rw [h]
    rfl

/-- C10 witness: a one-byte payload parses to `none`, and a long-enough
payload is split into the little-endian id 513 = 1 + 256 * 2 and the tail
handed to the decoder. -/
theorem parse_manufacturer_data_total_witness :
    parse_manufacturer_data exDec [7] = none ∧
    parse_manufacturer_data exDec [1, 2, 3] =
      exceptOk (exDec (u16_from_le_bytes 1 2) [3]) ∧
    parse_manufacturer_data exDec [1, 2, 3] = none := by
  have h := parse_manufacturer_data_total exDec
  exact ⟨h.1 [7] (by decide), h.2.1 1 2 [3], h.2.2 1 2 [3] rfl⟩

end Ruuvi
